import Mathlib

/-!
Shallow embedding of the LPC55 PUF driver (`src/lib/lpc55-puf/src/lib.rs`).

The driver wraps a memory-mapped PUF peripheral.  We model:

* the register-file state the driver reads and modifies (`PufState`):
  the two index-blocking registers, their shadow (`DP`) registers, and the
  key-index / key-size registers, plus the two `allow` bits the modelled
  operations consult;
* every register write as an explicit `WriteEvent`, so that theorems can
  talk about which registers an operation touched ("no write to the control
  register occurs");
* the polling-based command protocols (`generate_keycode`, `get_key`) over
  an explicit trace of `stat`-register readings: every read of the `stat`
  register consumes one element of the trace, mirroring the fact that each
  Rust helper (`is_busy`, `is_error`, ...) performs a fresh volatile read.
  When the trace is exhausted while the code is still polling, the modelled
  outcome is `Outcome.spun` (the real loop would still be polling);
* Rust panics as the `Outcome.panicked`/`Except.error` constructors, carrying
  the panic message of the source.

Machine integers (`u32`/`usize`) are modelled as `Nat`.  The bitwise
operations of the source act on the low 32 bits only; the `u32` complement
`!x` is modelled as `not32 x = (2^32 - 1) ^^^ x`, which agrees with the
hardware complement for values below `2^32`.
-/

namespace Lpc55Puf

/-- One reading of the PUF `stat` register: the status bits the driver polls. -/
structure Stat where
  busy : Bool
  error : Bool
  success : Bool
  codeoutavail : Bool
  keyoutavail : Bool
  codeinreq : Bool
deriving DecidableEq

/-- The two command bits of the `ctrl` register that the driver sets. -/
inductive CtrlCmd where
  | generatekey
  | getkey
deriving DecidableEq

/-- A single register write performed by the driver, with the value written
(the `ctrl` writes set a single command bit, recorded symbolically). -/
inductive WriteEvent where
  | ctrl (c : CtrlCmd)
  | keyindex (v : Nat)
  | keysize (v : Nat)
  | codeinput (v : Nat)
  | idxblkL (v : Nat)
  | idxblkH (v : Nat)
  | idxblkLdp (v : Nat)
  | idxblkHdp (v : Nat)
deriving DecidableEq

/-- The register-file state the modelled operations read and update. -/
structure PufState where
  idxblk_l : Nat
  idxblk_h : Nat
  idxblk_l_dp : Nat
  idxblk_h_dp : Nat
  keyindex : Nat
  keysize : Nat
  allowsetkey : Bool
  allowgetkey : Bool
deriving DecidableEq

/-- Result of running a modelled operation: a returned boolean, a Rust
panic with its message, or exhaustion of the supplied `stat` trace while
the code was still busy-polling. -/
inductive Outcome where
  | ok (b : Bool)
  | panicked (msg : String)
  | spun
deriving DecidableEq

/-- Whether an outcome is a panic. -/
def Outcome.isPanic : Outcome → Bool
  | .panicked _ => true
  | _ => false

/-- The `u32` bitwise complement `!x` of the source, for values below `2^32`. -/
def not32 (x : Nat) : Nat := (2 ^ 32 - 1) ^^^ x

/-- `fn disable_index_bits(bits: u32, index: u32) -> u32`
(`bits & !(2 << (index * 2)) | 1 << (index * 2)` after `index % 8`):
set the disable bit and clear the enable bit of the 2-bit field. -/
def disable_index_bits (bits index : Nat) : Nat :=
  let index := index % 8
  bits &&& not32 (2 <<< (index * 2)) ||| 1 <<< (index * 2)

/-- `fn enable_index_bits(bits: u32, index: u32) -> u32`
(`bits & !(1 << (index * 2)) | 2 << (index * 2)` after `index % 8`):
set the enable bit and clear the disable bit of the 2-bit field. -/
def enable_index_bits (bits index : Nat) : Nat :=
  let index := index % 8
  bits &&& not32 (1 <<< (index * 2)) ||| 2 <<< (index * 2)

/-- `Puf::key_to_keycode_len`: panics (modelled as `.error`) when the key
length is not a multiple of 8, otherwise returns `20 + ((key_len + 31) & !31)`.
`& !31` clears the five low bits, i.e. subtracts the remainder modulo 32. -/
def key_to_keycode_len (key_len : Nat) : Except String Nat :=
  if key_len % 8 ≠ 0 then
    .error "key length not a multiple of 8"
  else
    .ok (20 + ((key_len + 31) - (key_len + 31) % 32))

/-- `fn index_from_keycode(keycode: &[u32]) -> u32`: panics on an empty
slice, otherwise returns `keycode[0] >> 8 & 0xf`. -/
def index_from_keycode (keycode : List Nat) : Except String Nat :=
  match keycode with
  | [] => .error "invalid keycode"
  | w :: _ => .ok (w >>> 8 &&& 0xf)

/-- `enum LockState` with its `FromPrimitive` values (2 and 1). -/
inductive LockState where
  | writesEnabled
  | locked
deriving DecidableEq

/-- The derived `LockState::from_u32`: maps 2 and 1 to the two variants and
every other value (reserved register states) to `none`. -/
def lockStateFromU32 (n : Nat) : Option LockState :=
  if n = 2 then some .writesEnabled
  else if n = 1 then some .locked
  else none

/-- `Puf::get_lock_state`: decode the top two bits of a blocking register. -/
def get_lock_state (idxblk : Nat) : Option LockState :=
  lockStateFromU32 (idxblk >>> 30)

/-- `Puf::is_locked`: true exactly when the lock-state field decodes to
`Locked`. -/
def is_locked (idxblk : Nat) : Bool :=
  match get_lock_state idxblk with
  | some .locked => true
  | _ => false

/-- `Puf::is_idxblk_l_locked`. -/
def is_idxblk_l_locked (s : PufState) : Bool :=
  is_locked s.idxblk_l

/-- `Puf::is_idxblk_h_locked`. -/
def is_idxblk_h_locked (s : PufState) : Bool :=
  is_locked s.idxblk_h

/-- `Puf::lock_indices_low`: read-modify-write of `IDXBLK_L` with
`bits & !(1 << 31) | 1 << 30`. -/
def lock_indices_low (s : PufState) : PufState × List WriteEvent :=
  let v := s.idxblk_l &&& not32 (1 <<< 31) ||| 1 <<< 30
  ({ s with idxblk_l := v }, [WriteEvent.idxblkL v])

/-- `Puf::lock_indices_high`: same transform on `IDXBLK_H`. -/
def lock_indices_high (s : PufState) : PufState × List WriteEvent :=
  let v := s.idxblk_h &&& not32 (1 <<< 31) ||| 1 <<< 30
  ({ s with idxblk_h := v }, [WriteEvent.idxblkH v])

/-- `Puf::is_index_blocked`: tests the disable bit of the index's field in
the relevant blocking register; panics (modelled as `.error`) for indices
outside `1..=15`. -/
def is_index_blocked (s : PufState) (index : Nat) : Except String Bool :=
  if 1 ≤ index ∧ index ≤ 7 then
    .ok (decide (s.idxblk_l &&& (1 <<< (index * 2)) ≠ 0))
  else if 8 ≤ index ∧ index ≤ 15 then
    let index := index - 8
    .ok (decide (s.idxblk_h &&& (1 <<< (index * 2)) ≠ 0))
  else
    .error "invalid index"

/-- `Puf::is_index_locked`: panics outside `1..=15`, otherwise queries the
lock state of the register governing the index. -/
def is_index_locked (s : PufState) (index : Nat) : Except String Bool :=
  if 1 ≤ index ∧ index ≤ 7 then .ok (is_idxblk_l_locked s)
  else if 8 ≤ index ∧ index ≤ 15 then .ok (is_idxblk_h_locked s)
  else .error "invalid index"

/-- `Puf::block_index`: match on the index (`0`, `1..=7`, `8..=15`, `16..`).
For a valid index the relevant blocking register is rewritten with the
disable-transform of its current value and the shadow (`DP`) register is
written with the low 16 bits of the new value. -/
def block_index (s : PufState) (index : Nat) : Bool × PufState × List WriteEvent :=
  if index = 0 then
    (false, s, [])
  else if index ≤ 7 then
    let idxblk := disable_index_bits s.idxblk_l index
    let dp := idxblk &&& 0xffff
    (true, { s with idxblk_l := idxblk, idxblk_l_dp := dp },
      [WriteEvent.idxblkL idxblk, WriteEvent.idxblkLdp dp])
  else if index ≤ 15 then
    let idxblk := disable_index_bits s.idxblk_h index
    let dp := idxblk &&& 0xffff
    (true, { s with idxblk_h := idxblk, idxblk_h_dp := dp },
      [WriteEvent.idxblkH idxblk, WriteEvent.idxblkHdp dp])
  else
    (false, s, [])

/-- `Puf::unblock_index`: symmetric to `block_index`, using the
enable-transform. -/
def unblock_index (s : PufState) (index : Nat) : Bool × PufState × List WriteEvent :=
  if index = 0 then
    (false, s, [])
  else if index ≤ 7 then
    let idxblk := enable_index_bits s.idxblk_l index
    let dp := idxblk &&& 0xffff
    (true, { s with idxblk_l := idxblk, idxblk_l_dp := dp },
      [WriteEvent.idxblkL idxblk, WriteEvent.idxblkLdp dp])
  else if index ≤ 15 then
    let idxblk := enable_index_bits s.idxblk_h index
    let dp := idxblk &&& 0xffff
    (true, { s with idxblk_h := idxblk, idxblk_h_dp := dp },
      [WriteEvent.idxblkH idxblk, WriteEvent.idxblkHdp dp])
  else
    (false, s, [])

/-- `Puf::set_key_index`: rejects indices above 15 without touching the
register, otherwise writes the key-index register. -/
def set_key_index (s : PufState) (index : Nat) : Bool × PufState × List WriteEvent :=
  if index > 15 then
    (false, s, [])
  else
    (true, { s with keyindex := index }, [WriteEvent.keyindex index])

/-- `Puf::set_key_size`: computes the register encoding `(size * 8) >> 6`;
writes it and returns true when it is below 32, otherwise returns false
without touching the register. -/
def set_key_size (s : PufState) (size : Nat) : Bool × PufState × List WriteEvent :=
  let size := (size * 8) >>> 6
  if size < 32 then
    (true, { s with keysize := size }, [WriteEvent.keysize size])
  else
    (false, s, [])

/-- The fresh `stat` read `!self.is_error()` performed after the accept loop
(and after the streaming loops, for `is_success`, see `readSuccess`). -/
def readNotError : List Stat → Option Bool × List Stat
  | [] => (none, [])
  | s :: rest => (some (!s.error), rest)

/-- `Puf::wait_for_cmd_accept`: `while !is_busy() && !is_error() {}` then
`!is_error()`.  Each condition read consumes one trace element; `&&`
short-circuits, so `is_error` is only read when the busy read was false.
Returns `none` when the trace runs out mid-poll. -/
def wait_for_cmd_accept : List Stat → Option Bool × List Stat
  | [] => (none, [])
  | s1 :: rest =>
    if s1.busy then readNotError rest
    else
      match rest with
      | [] => (none, [])
      | s2 :: rest2 =>
        if s2.error then readNotError rest2
        else wait_for_cmd_accept rest2

/-- The `self.is_success()` read performed after a streaming loop exits:
one more `stat` read determines the returned boolean. -/
def readSuccess (trace : List Stat) (writes : List WriteEvent) (buf : List Nat) :
    Outcome × List WriteEvent × List Nat :=
  match trace with
  | [] => (.spun, writes, buf)
  | s :: _ => (.ok s.success, writes, buf)

/-- `u32::to_ne_bytes` on the (little-endian) LPC55: the four bytes of a
word, least significant first. -/
def word_to_ne_bytes (w : Nat) : List Nat :=
  [w % 2 ^ 8, w / 2 ^ 8 % 2 ^ 8, w / 2 ^ 16 % 2 ^ 8, w / 2 ^ 24 % 2 ^ 8]

/-- A single Rust slice store `key[i] = v`: panics (modelled as `.error`)
when `i` is out of bounds. -/
def setByte (key : List Nat) (i v : Nat) : Except String (List Nat) :=
  if i < key.length then .ok (key.set i v) else .error "index out of bounds"

/-- The byte-store loop `for byte in word.to_ne_bytes() { key[key_idx] = byte; key_idx += 1 }`. -/
def writeKeyBytes (key : List Nat) (key_idx : Nat) : List Nat → Except String (List Nat)
  | [] => .ok key
  | b :: rest =>
    match setByte key key_idx b with
    | .error e => .error e
    | .ok key' => writeKeyBytes key' (key_idx + 1) rest

/- The streaming loop of `Puf::get_key` (source lines 142-155) followed by
the final `is_success()` read.  Per iteration the code reads `stat` up to
four times: `is_busy`, `is_error` (only when busy), `is_keycode_part_req`,
`is_key_part_avail`; each read consumes one trace element.  `keyOut n` is
the value the hardware `keyoutput` register delivers at the n-th read;
`kc_idx`, `ko_idx`, `key_idx` and the accumulated register writes are
threaded explicitly.  The loop body is split into one function per status
read so that each definition is a single small pattern match. -/
mutual

/-- Entry of each iteration: the `is_busy()` read.  When busy is clear the
loop exits into the final `is_success()` read. -/
def getKeyLoop (keyOut : Nat → Nat) (keycode : List Nat) :
    List Stat → Nat → Nat → List Nat → Nat → List WriteEvent →
    Outcome × List WriteEvent × List Nat
  | [], _, _, key, _, writes => (.spun, writes, key)
  | s1 :: rest, kc_idx, ko_idx, key, key_idx, writes =>
    if !s1.busy then readSuccess rest writes key
    else getKeyErrRead keyOut keycode rest kc_idx ko_idx key key_idx writes

/-- The `is_error()` read of the `while is_busy() && !is_error()` condition
(only reached when the busy read came back set). -/
def getKeyErrRead (keyOut : Nat → Nat) (keycode : List Nat) :
    List Stat → Nat → Nat → List Nat → Nat → List WriteEvent →
    Outcome × List WriteEvent × List Nat
  | [], _, _, key, _, writes => (.spun, writes, key)
  | s2 :: rest2, kc_idx, ko_idx, key, key_idx, writes =>
    if s2.error then readSuccess rest2 writes key
    else getKeyReqRead keyOut keycode rest2 kc_idx ko_idx key key_idx writes

/-- The `is_keycode_part_req()` read:
`if is_keycode_part_req() { codeinput.write(keycode[kc_idx]); kc_idx += 1 }`;
the slice access `keycode[kc_idx]` panics when the index is out of range. -/
def getKeyReqRead (keyOut : Nat → Nat) (keycode : List Nat) :
    List Stat → Nat → Nat → List Nat → Nat → List WriteEvent →
    Outcome × List WriteEvent × List Nat
  | [], _, _, key, _, writes => (.spun, writes, key)
  | s3 :: rest3, kc_idx, ko_idx, key, key_idx, writes =>
    if s3.codeinreq then
      match keycode[kc_idx]? with
      | none => (.panicked "index out of bounds", writes, key)
      | some w =>
        getKeyOutRead keyOut keycode rest3 (kc_idx + 1) ko_idx key key_idx
          (writes ++ [WriteEvent.codeinput w])
    else getKeyOutRead keyOut keycode rest3 kc_idx ko_idx key key_idx writes

/-- The `is_key_part_avail()` read:
`if is_key_part_avail() { for byte in keyoutput.read().to_ne_bytes() { key[key_idx] = byte; key_idx += 1 } }`;
each byte store panics when its index is out of range. -/
def getKeyOutRead (keyOut : Nat → Nat) (keycode : List Nat) :
    List Stat → Nat → Nat → List Nat → Nat → List WriteEvent →
    Outcome × List WriteEvent × List Nat
  | [], _, _, key, _, writes => (.spun, writes, key)
  | s4 :: rest4, kc_idx, ko_idx, key, key_idx, writes =>
    if s4.keyoutavail then
      match writeKeyBytes key key_idx (word_to_ne_bytes (keyOut ko_idx)) with
      | .error e => (.panicked e, writes, key)
      | .ok key' =>
        getKeyLoop keyOut keycode rest4 kc_idx (ko_idx + 1) key' (key_idx + 4) writes
    else getKeyLoop keyOut keycode rest4 kc_idx ko_idx key key_idx writes

end

/-- `Puf::get_key`: the allow check, index extraction, blocking check, the
`GETKEY` control write, `wait_for_cmd_accept` (result ignored) and the
streaming loop.  Returns the outcome, the register writes performed, and
the final contents of the caller's key buffer. -/
def get_key (s : PufState) (trace : List Stat) (keyOut : Nat → Nat)
    (keycode : List Nat) (key : List Nat) : Outcome × List WriteEvent × List Nat :=
  if !s.allowgetkey then (.ok false, [], key)
  else
    match index_from_keycode keycode with
    | .error e => (.panicked e, [], key)
    | .ok index =>
      match is_index_blocked s index with
      | .error e => (.panicked e, [], key)
      | .ok true => (.ok false, [], key)
      | .ok false =>
        let writes := [WriteEvent.ctrl .getkey]
        match wait_for_cmd_accept trace with
        | (none, _) => (.spun, writes, key)
        | (some _, rest) => getKeyLoop keyOut keycode rest 0 0 key 0 writes

/-- The final `is_success()` read of `generate_keycode` (no writes are
performed by its streaming loop, so only the buffer is threaded). -/
def readSuccessG (trace : List Stat) (buf : List Nat) : Outcome × List Nat :=
  match trace with
  | [] => (.spun, buf)
  | s :: _ => (.ok s.success, buf)

/-- The streaming loop of `Puf::generate_keycode` (source lines 95-105)
followed by the final `is_success()` read.  Per iteration: an `is_busy`
read; when busy, the buffer-overflow check `idx > keycode.len() - 1`
(panic `PufKCTooLong`), then an `is_keycode_part_avail` read, and on
availability a `codeoutput` read (`codeOut n` is the n-th word delivered)
stored into the buffer. -/
def generateLoop (codeOut : Nat → Nat) :
    List Stat → Nat → Nat → List Nat → Outcome × List Nat
  | [], _, _, keycode => (.spun, keycode)
  | s1 :: rest, idx, co_idx, keycode =>
    if !s1.busy then readSuccessG rest keycode
    else if idx > keycode.length - 1 then (.panicked "PufKCTooLong", keycode)
    else
      match rest with
      | [] => (.spun, keycode)
      | s2 :: rest2 =>
        if s2.codeoutavail then
          generateLoop codeOut rest2 (idx + 1) (co_idx + 1) (keycode.set idx (codeOut co_idx))
        else
          generateLoop codeOut rest2 idx co_idx keycode

/-- `Puf::generate_keycode`: allow check (panic `PufCmdDisallowed`),
keycode-length computation (panics for a key length not a multiple of 8),
buffer-size check (panic `PufKeyCode`), programming of the key-index and
key-size registers with both boolean results discarded (as in the source),
the `GENERATEKEY` control write, the accept wait (panic `PufCmdAccept` on
rejection) and the streaming loop. -/
def generate_keycode (s : PufState) (trace : List Stat) (codeOut : Nat → Nat)
    (index : Nat) (key_len : Nat) (keycode : List Nat) :
    Outcome × PufState × List WriteEvent × List Nat :=
  if !s.allowsetkey then (.panicked "PufCmdDisallowed", s, [], keycode)
  else
    match key_to_keycode_len key_len with
    | .error e => (.panicked e, s, [], keycode)
    | .ok kl =>
      -- divide by size_of::<u32>() because the buffer is an array of u32
      let keycode_len := kl / 4
      if keycode.length < keycode_len then (.panicked "PufKeyCode", s, [], keycode)
      else
        let r1 := set_key_index s index
        let r2 := set_key_size r1.2.1 key_len
        let writes := r1.2.2 ++ r2.2.2 ++ [WriteEvent.ctrl .generatekey]
        match wait_for_cmd_accept trace with
        | (none, _) => (.spun, r2.2.1, writes, keycode)
        | (some accepted, rest) =>
          if !accepted then (.panicked "PufCmdAccept", r2.2.1, writes, keycode)
          else
            let lr := generateLoop codeOut rest 0 0 keycode
            (lr.1, r2.2.1, writes, lr.2)

/- The input/output demand a `stat` trace puts on `get_key`'s streaming
loop: how many `codeinput` words the trace requests and how many
`keyoutput` words it offers, following exactly the read pattern of
`getKeyLoop` (busy, error, code-in-request, key-out-available). -/
mutual

/-- Demand of a trace entering an iteration at the busy read. -/
def loopDemand : List Stat → Nat × Nat
  | [] => (0, 0)
  | s1 :: rest => if !s1.busy then (0, 0) else demandErr rest

/-- Demand of a trace positioned at the error read. -/
def demandErr : List Stat → Nat × Nat
  | [] => (0, 0)
  | s2 :: rest2 => if s2.error then (0, 0) else demandReq rest2

/-- Demand of a trace positioned at the code-input-request read. -/
def demandReq : List Stat → Nat × Nat
  | [] => (0, 0)
  | s3 :: rest3 =>
    ((if s3.codeinreq then 1 else 0) + (demandOut rest3).1, (demandOut rest3).2)

/-- Demand of a trace positioned at the key-output-available read. -/
def demandOut : List Stat → Nat × Nat
  | [] => (0, 0)
  | s4 :: rest4 =>
    ((loopDemand rest4).1, (if s4.keyoutavail then 1 else 0) + (loopDemand rest4).2)

end

/-- A register state with everything zero and both commands disallowed. -/
def st0 : PufState := ⟨0, 0, 0, 0, 0, 0, false, false⟩

/-- A register state in which only GENERATEKEY is allowed. -/
def stG : PufState := ⟨0, 0, 0, 0, 0, 0, true, false⟩

/-- A register state in which only GETKEY is allowed. -/
def stK : PufState := ⟨0, 0, 0, 0, 0, 0, false, true⟩

/-- GETKEY allowed and key index 1 blocked (disable bit 2 set in IDXBLK_L). -/
def stK1 : PufState := ⟨4, 0, 0, 0, 0, 0, false, true⟩

/-- A hardware output stream delivering only zero words. -/
def ko0 : Nat → Nat := fun _ => 0

/-- Stat reading: busy, nothing else. -/
def sBusy : Stat := ⟨true, false, false, false, false, false⟩

/-- Stat reading: all bits clear. -/
def sIdle : Stat := ⟨false, false, false, false, false, false⟩

/-- Stat reading: success set, everything else clear. -/
def sSucc : Stat := ⟨false, false, true, false, false, false⟩

/-- Stat reading: busy with a code-input request. -/
def sBusyReq : Stat := ⟨true, false, false, false, false, true⟩

/-- Stat reading: key-output word available (not busy). -/
def sOutAvail : Stat := ⟨false, false, false, false, true, false⟩

/-- A trace on which a command is accepted (busy, then no error) and then
completes successfully without streaming any data. -/
def trAcc : List Stat := [sBusy, sIdle, sIdle, sSucc]

/-- A loop trace demanding one code-input word (busy, no error, request). -/
def trOver : List Stat := [sBusy, sIdle, sBusyReq, sIdle]

/-- A full `get_key` trace: command accepted, then the hardware offers one
key-output word. -/
def trC10 : List Stat := [sBusy, sIdle, sBusy, sIdle, sIdle, sOutAvail]

/-- A 13-word (52-byte) keycode buffer, as required for a 32-byte key. -/
def kc13 : List Nat := List.replicate 13 0

/- ------------------------------------------------------------------ -/
/- Theorems                                                           -/
/- ------------------------------------------------------------------ -/

/-- C4: for every key length that is a multiple of 8 bytes,
`key_to_keycode_len` returns exactly `20 + ((key_len + 31) & !31)`;
consequently it is monotonic non-decreasing, constant within each 32-byte
bucket, and maps lengths 8 and 32 to 52, 40 and 64 to 84, and 72 and 96
to 116. -/
theorem key_to_keycode_len_spec :
    (∀ k, k % 8 = 0 → key_to_keycode_len k = .ok (20 + ((k + 31) - (k + 31) % 32))) ∧
    (∀ k k' v v', k % 8 = 0 → k' % 8 = 0 → k ≤ k' →
      key_to_keycode_len k = .ok v → key_to_keycode_len k' = .ok v' → v ≤ v') ∧
    (∀ k k', k % 8 = 0 → k' % 8 = 0 → (k + 31) / 32 = (k' + 31) / 32 →
      key_to_keycode_len k = key_to_keycode_len k') ∧
    (key_to_keycode_len 8 = .ok 52 ∧ key_to_keycode_len 32 = .ok 52 ∧
      key_to_keycode_len 40 = .ok 84 ∧ key_to_keycode_len 64 = .ok 84 ∧
      key_to_keycode_len 72 = .ok 116 ∧ key_to_keycode_len 96 = .ok 116) := by
  refine ⟨?_, ?_, ?_, ?_⟩
  · intro k hk
    simp [key_to_keycode_len, hk]
  · intro k k' v v' hk hk' hle hv hv'
    simp [key_to_keycode_len, hk, hk'] at hv hv'
    omega
  · intro k k' hk hk' hdiv
    simp only [key_to_keycode_len, hk, hk']
    simp only [ne_eq, not_true_eq_false, if_false, ite_false]
    congr 1
    omega
  · refine ⟨?_, ?_, ?_, ?_, ?_, ?_⟩ <;> rfl

/-- Witness for C4 at the concrete length 8. -/
theorem key_to_keycode_len_spec_witness :
    (8 : Nat) % 8 = 0 ∧ key_to_keycode_len 8 = .ok (20 + ((8 + 31) - (8 + 31) % 32)) :=
  ⟨by decide, key_to_keycode_len_spec.1 8 (by decide)⟩

/-- C7: for a key length that is not a multiple of 8 the code does not
return a recoverable error value; it panics with the message
"key length not a multiple of 8" (modelled as `.error`).  Evaluation at
the failing input 7. -/
theorem key_to_keycode_len_panics_on_seven :
    key_to_keycode_len 7 = .error "key length not a multiple of 8" := by
  rfl

/-- C1: whenever the embedded index of a keycode is marked blocked in the
relevant blocking register, `get_key` returns failure (`false`) without
performing any register write — in particular the GETKEY control-register
write never happens — in every register state and for every stat trace. -/
theorem get_key_blocked_refused (s : PufState) (trace : List Stat) (keyOut : Nat → Nat)
    (keycode key : List Nat) (index : Nat)
    (hidx : index_from_keycode keycode = .ok index)
    (hblk : is_index_blocked s index = .ok true) :
    get_key s trace keyOut keycode key = (.ok false, [], key) := by
  unfold get_key
  cases hA : s.allowgetkey
  · simp
  · simp [hidx, hblk]

/-- Witness for C1: keycode word `0x101` embeds index 1, which is blocked
in `stK1`; `get_key` refuses without any write. -/
theorem get_key_blocked_refused_witness :
    index_from_keycode [0x101] = .ok 1 ∧ is_index_blocked stK1 1 = .ok true ∧
    get_key stK1 [] ko0 [0x101] [] = (.ok false, [], []) :=
  ⟨by rfl, by rfl,
    get_key_blocked_refused stK1 [] ko0 [0x101] [] 1 (by rfl) (by rfl)⟩

/-- C9: `get_key` panics before any hardware command for some inputs
instead of returning false: with an empty keycode it panics in
`index_from_keycode` ("invalid keycode"); with a keycode whose word-0
bits 8-11 are 0 it panics in `is_index_blocked` ("invalid index"); and
`is_index_blocked` panics for every index outside `1..=15`. -/
theorem get_key_panics_on_bad_keycode :
    (∀ (s : PufState) (trace : List Stat) (keyOut : Nat → Nat) (key : List Nat),
      s.allowgetkey = true →
      get_key s trace keyOut [] key = (.panicked "invalid keycode", [], key)) ∧
    (∀ (s : PufState) (trace : List Stat) (keyOut : Nat → Nat) (w : Nat)
      (kcrest key : List Nat),
      s.allowgetkey = true → w >>> 8 &&& 0xf = 0 →
      get_key s trace keyOut (w :: kcrest) key = (.panicked "invalid index", [], key)) ∧
    (∀ (s : PufState) (index : Nat), index = 0 ∨ 16 ≤ index →
      is_index_blocked s index = .error "invalid index") := by
  refine ⟨?_, ?_, ?_⟩
  · intro s trace keyOut key hA
    simp [get_key, hA, index_from_keycode]
  · intro s trace keyOut w kcrest key hA hw
    have hblk : is_index_blocked s 0 = .error "invalid index" := by
      simp [is_index_blocked]
    simp [get_key, hA, index_from_keycode, hw, hblk]
  · intro s index h
    have h1 : ¬(1 ≤ index ∧ index ≤ 7) := by omega
    have h2 : ¬(8 ≤ index ∧ index ≤ 15) := by omega
    simp [is_index_blocked, h1, h2]

/-- Witness for C9: concrete panics with GETKEY allowed. -/
theorem get_key_panics_on_bad_keycode_witness :
    stK.allowgetkey = true ∧
    get_key stK [] ko0 [] [] = (.panicked "invalid keycode", [], []) ∧
    get_key stK [] ko0 [0] [] = (.panicked "invalid index", [], []) ∧
    is_index_blocked stK 16 = .error "invalid index" :=
  ⟨by decide,
    get_key_panics_on_bad_keycode.1 stK [] ko0 [] (by decide),
    get_key_panics_on_bad_keycode.2.1 stK [] ko0 0 [] [] (by decide) (by decide),
    get_key_panics_on_bad_keycode.2.2 stK 16 (Or.inr (by decide))⟩

/-- C2 counterexample: with GENERATEKEY allowed, index 16 (greater than 15)
and a valid key length 8, `generate_keycode` does not fail: it proceeds to
issue the GENERATEKEY command (the control-register write is performed, the
key-index register is silently left unprogrammed) and returns success on an
accepting trace. -/
theorem generate_keycode_ignores_bad_index_cex :
    15 < 16 ∧
    (generate_keycode stG trAcc ko0 16 8 kc13).1 = .ok true ∧
    (generate_keycode stG trAcc ko0 16 8 kc13).2.2.1 =
      [WriteEvent.keysize 1, WriteEvent.ctrl .generatekey] := by
  refine ⟨by decide, by rfl, by rfl⟩

/-- C2 amended: an index greater than 15 and a key-size encoding of 32 or
more are each surfaced as a distinct validation failure of the helper that
programs the corresponding register (`set_key_index` / `set_key_size`
return false without writing), but `generate_keycode` discards both boolean
results and proceeds to issue the generate command regardless. -/
theorem generate_keycode_validation_helpers :
    (∀ (s : PufState) (index : Nat), 15 < index →
      set_key_index s index = (false, s, [])) ∧
    (∀ (s : PufState) (size : Nat), 32 ≤ (size * 8) >>> 6 →
      set_key_size s size = (false, s, [])) ∧
    (∀ (s : PufState) (trace : List Stat) (codeOut : Nat → Nat)
      (index key_len : Nat) (keycode : List Nat) (kl : Nat),
      s.allowsetkey = true → key_to_keycode_len key_len = .ok kl →
      kl / 4 ≤ keycode.length →
      WriteEvent.ctrl .generatekey ∈ (generate_keycode s trace codeOut index key_len keycode).2.2.1) := by
  refine ⟨?_, ?_, ?_⟩
  · intro s index h
    simp [set_key_index, h]
  · intro s size h
    simp [set_key_size, Nat.not_lt_of_le h]
  · intro s trace codeOut index key_len keycode kl hA hkl hbuf
    have hb : ¬ keycode.length < kl / 4 := by omega
    simp only [generate_keycode, hA, hkl, Bool.not_true, Bool.false_eq_true, if_false, hb,
      ite_false]
    rcases hacc : wait_for_cmd_accept trace with ⟨ob, rest⟩
    cases ob with
    | none => simp
    | some accepted =>
      cases accepted <;> simp [List.mem_append]

/-- Witness for C2's amended statement at concrete inputs. -/
theorem generate_keycode_validation_helpers_witness :
    (15 < 16 ∧ set_key_index st0 16 = (false, st0, [])) ∧
    (32 ≤ (256 * 8) >>> 6 ∧ set_key_size st0 256 = (false, st0, [])) ∧
    (stG.allowsetkey = true ∧ key_to_keycode_len 8 = .ok 52 ∧ 52 / 4 ≤ kc13.length ∧
      WriteEvent.ctrl .generatekey ∈ (generate_keycode stG trAcc ko0 16 8 kc13).2.2.1) :=
  ⟨⟨by decide, generate_keycode_validation_helpers.1 st0 16 (by decide)⟩,
   ⟨by decide, generate_keycode_validation_helpers.2.1 st0 256 (by decide)⟩,
   ⟨by decide, by rfl, by decide,
    generate_keycode_validation_helpers.2.2 stG trAcc ko0 16 8 kc13 52 (by decide) (by rfl)
      (by decide)⟩⟩

/-- C3 counterexample: with the generate-allowed bit clear,
`generate_keycode` does not return a recoverable failure value: it panics
with `PufCmdDisallowed`. -/
theorem generate_keycode_disallowed_cex :
    st0.allowsetkey = false ∧
    generate_keycode st0 [] ko0 1 8 kc13 = (.panicked "PufCmdDisallowed", st0, [], kc13) := by
  refine ⟨by decide, by rfl⟩

/-- C3 amended: when the generate-allowed status bit is clear
`generate_keycode` panics with `PufCmdDisallowed` before touching any
register, and when the issued generate command is rejected at the accept
stage it panics with `PufCmdAccept` — in both cases it terminates instead
of returning a recoverable failure value. -/
theorem generate_keycode_denial_panics :
    (∀ (s : PufState) (trace : List Stat) (codeOut : Nat → Nat)
      (index key_len : Nat) (keycode : List Nat),
      s.allowsetkey = false →
      generate_keycode s trace codeOut index key_len keycode =
        (.panicked "PufCmdDisallowed", s, [], keycode)) ∧
    (∀ (s : PufState) (trace : List Stat) (codeOut : Nat → Nat)
      (index key_len : Nat) (keycode : List Nat) (kl : Nat) (rest : List Stat),
      s.allowsetkey = true → key_to_keycode_len key_len = .ok kl →
      kl / 4 ≤ keycode.length →
      wait_for_cmd_accept trace = (some false, rest) →
      (generate_keycode s trace codeOut index key_len keycode).1 =
        .panicked "PufCmdAccept") := by
  refine ⟨?_, ?_⟩
  · intro s trace codeOut index key_len keycode hA
    simp [generate_keycode, hA]
  · intro s trace codeOut index key_len keycode kl rest hA hkl hbuf hacc
    have hb : ¬ keycode.length < kl / 4 := by omega
    simp [generate_keycode, hA, hkl, hb, hacc]

/-- Witness for C3's amended statement at concrete inputs. -/
theorem generate_keycode_denial_panics_witness :
    (st0.allowsetkey = false ∧
      generate_keycode st0 [] ko0 1 8 kc13 = (.panicked "PufCmdDisallowed", st0, [], kc13)) ∧
    (stG.allowsetkey = true ∧
      wait_for_cmd_accept [sBusy, ⟨false, true, false, false, false, false⟩] =
        (some false, []) ∧
      (generate_keycode stG [sBusy, ⟨false, true, false, false, false, false⟩] ko0 1 8 kc13).1 =
        .panicked "PufCmdAccept") :=
  ⟨⟨by decide, generate_keycode_denial_panics.1 st0 [] ko0 1 8 kc13 (by decide)⟩,
   ⟨by decide, by rfl,
    generate_keycode_denial_panics.2 stG [sBusy, ⟨false, true, false, false, false, false⟩]
      ko0 1 8 kc13 52 [] (by decide) (by rfl) (by decide) (by rfl)⟩⟩

/-- C6: `block_index` and `unblock_index` reject index 0 and indices ≥ 16
with no register write; for indices 1-7 they rewrite only `IDXBLK_L` and
then its shadow with the low 16 bits of the new value; for 8-15 the same
with `IDXBLK_H`; no other register field of the state changes. -/
theorem block_unblock_frame (s : PufState) (index : Nat) :
    ((index = 0 ∨ 16 ≤ index) →
      block_index s index = (false, s, []) ∧ unblock_index s index = (false, s, [])) ∧
    (1 ≤ index → index ≤ 7 →
      block_index s index =
        (true,
          { s with idxblk_l := disable_index_bits s.idxblk_l index,
                   idxblk_l_dp := disable_index_bits s.idxblk_l index &&& 0xffff },
          [WriteEvent.idxblkL (disable_index_bits s.idxblk_l index),
           WriteEvent.idxblkLdp (disable_index_bits s.idxblk_l index &&& 0xffff)]) ∧
      unblock_index s index =
        (true,
          { s with idxblk_l := enable_index_bits s.idxblk_l index,
                   idxblk_l_dp := enable_index_bits s.idxblk_l index &&& 0xffff },
          [WriteEvent.idxblkL (enable_index_bits s.idxblk_l index),
           WriteEvent.idxblkLdp (enable_index_bits s.idxblk_l index &&& 0xffff)])) ∧
    (8 ≤ index → index ≤ 15 →
      block_index s index =
        (true,
          { s with idxblk_h := disable_index_bits s.idxblk_h index,
                   idxblk_h_dp := disable_index_bits s.idxblk_h index &&& 0xffff },
          [WriteEvent.idxblkH (disable_index_bits s.idxblk_h index),
           WriteEvent.idxblkHdp (disable_index_bits s.idxblk_h index &&& 0xffff)]) ∧
      unblock_index s index =
        (true,
          { s with idxblk_h := enable_index_bits s.idxblk_h index,
                   idxblk_h_dp := enable_index_bits s.idxblk_h index &&& 0xffff },
          [WriteEvent.idxblkH (enable_index_bits s.idxblk_h index),
           WriteEvent.idxblkHdp (enable_index_bits s.idxblk_h index &&& 0xffff)])) := by
  refine ⟨?_, ?_, ?_⟩
  · rintro (rfl | h16)
    · simp [block_index, unblock_index]
    · have h0 : index ≠ 0 := by omega
      have h7 : ¬ index ≤ 7 := by omega
      have h15 : ¬ index ≤ 15 := by omega
      simp [block_index, unblock_index, h0, h7, h15]
  · intro h1 h7
    have h0 : index ≠ 0 := by omega
    simp [block_index, unblock_index, h0, h7]
  · intro h8 h15
    have h0 : index ≠ 0 := by omega
    have h7 : ¬ index ≤ 7 := by omega
    simp [block_index, unblock_index, h0, h7, h15]

/-- Witness for C6 at the concrete indices 0, 3, 9 and 16. -/
theorem block_unblock_frame_witness :
    (block_index st0 0 = (false, st0, []) ∧ unblock_index st0 0 = (false, st0, [])) ∧
    (block_index st0 16 = (false, st0, []) ∧ unblock_index st0 16 = (false, st0, [])) ∧
    block_index st0 3 =
      (true,
        { st0 with idxblk_l := disable_index_bits st0.idxblk_l 3,
                   idxblk_l_dp := disable_index_bits st0.idxblk_l 3 &&& 0xffff },
        [WriteEvent.idxblkL (disable_index_bits st0.idxblk_l 3),
         WriteEvent.idxblkLdp (disable_index_bits st0.idxblk_l 3 &&& 0xffff)]) ∧
    unblock_index st0 9 =
      (true,
        { st0 with idxblk_h := enable_index_bits st0.idxblk_h 9,
                   idxblk_h_dp := enable_index_bits st0.idxblk_h 9 &&& 0xffff },
        [WriteEvent.idxblkH (enable_index_bits st0.idxblk_h 9),
         WriteEvent.idxblkHdp (enable_index_bits st0.idxblk_h 9 &&& 0xffff)]) :=
  ⟨(block_unblock_frame st0 0).1 (Or.inl rfl),
   (block_unblock_frame st0 16).1 (Or.inr (by decide)),
   ((block_unblock_frame st0 3).2.1 (by decide) (by decide)).1,
   ((block_unblock_frame st0 9).2.2 (by decide) (by decide)).2⟩

/-- Bit view of the modelled `u32` complement. -/
theorem testBit_not32 (x k : Nat) :
    (not32 x).testBit k = (decide (k < 32) ^^ x.testBit k) := by
  rw [not32, Nat.testBit_xor, Nat.testBit_two_pow_sub_one]

/-- Writing `2 << j` as a power of two. -/
theorem two_shiftLeft_eq (j : Nat) : (2 : Nat) <<< j = 2 ^ (j + 1) := by
  rw [Nat.shiftLeft_eq, Nat.pow_succ, Nat.mul_comm]

/-- Bit-level description of `enable_index_bits` after `disable_index_bits`
on the same index: the disable bit (at offset `(index % 8) * 2`) comes out
clear, the enable bit (one above it) comes out set, every other bit below
32 is passed through, and bits from 32 up are cleared. -/
theorem enable_disable_testBit (bits index k : Nat) :
    (enable_index_bits (disable_index_bits bits index) index).testBit k =
      (decide ((index % 8) * 2 + 1 = k) ||
        (bits.testBit k && decide (k < 32) &&
          !decide ((index % 8) * 2 = k) && !decide ((index % 8) * 2 + 1 = k))) := by
  have hj : (index % 8) * 2 + 1 < 32 := by omega
  simp only [enable_index_bits, disable_index_bits, two_shiftLeft_eq, Nat.one_shiftLeft,
    Nat.testBit_lor, Nat.testBit_land, testBit_not32, Nat.testBit_two_pow]
  by_cases h1 : (index % 8) * 2 = k <;> by_cases h2 : (index % 8) * 2 + 1 = k <;>
    by_cases h3 : k < 32 <;> simp_all <;> omega

set_option maxRecDepth 10000 in
/-- C5 counterexample: for the 32-bit register value 4 (index 1's field is
`0b01`, i.e. blocked) the round trip `enable_index_bits ∘ disable_index_bits`
on index 1 yields 8, not 4: the original field bits are not restored (bit 2
flips from set to clear). -/
theorem enable_after_disable_cex :
    (4 : Nat) < 2 ^ 32 ∧ Nat.testBit 4 2 = true ∧
    enable_index_bits (disable_index_bits 4 1) 1 = 8 ∧ Nat.testBit 8 2 = false := by
  refine ⟨by norm_num, by decide, by decide, by decide⟩

/-- C5 amended: for every 32-bit register value and every index, applying
`enable_index_bits` after `disable_index_bits` on the same index always
leaves that index's 2-bit field in the enabled encoding `0b10` — hence it
restores the original field exactly when that field was `0b10` — and it
leaves all other bits (in particular all other indices' field bits)
unchanged. -/
theorem enable_after_disable_behaviour (bits index : Nat) (hb : bits < 2 ^ 32) :
    ((enable_index_bits (disable_index_bits bits index) index).testBit ((index % 8) * 2) = false ∧
     (enable_index_bits (disable_index_bits bits index) index).testBit ((index % 8) * 2 + 1) = true) ∧
    (∀ k, k ≠ (index % 8) * 2 → k ≠ (index % 8) * 2 + 1 →
      (enable_index_bits (disable_index_bits bits index) index).testBit k = bits.testBit k) ∧
    (bits.testBit ((index % 8) * 2) = false → bits.testBit ((index % 8) * 2 + 1) = true →
      enable_index_bits (disable_index_bits bits index) index = bits) := by
  have hfield : (enable_index_bits (disable_index_bits bits index) index).testBit
        ((index % 8) * 2) = false ∧
      (enable_index_bits (disable_index_bits bits index) index).testBit
        ((index % 8) * 2 + 1) = true := by
    constructor <;> rw [enable_disable_testBit] <;> simp <;> omega
  have hframe : ∀ k, k ≠ (index % 8) * 2 → k ≠ (index % 8) * 2 + 1 →
      (enable_index_bits (disable_index_bits bits index) index).testBit k = bits.testBit k := by
    intro k hk1 hk2
    rw [enable_disable_testBit]
    by_cases h3 : k < 32
    · simp [Ne.symm hk1, Ne.symm hk2, h3]
    · have hbk : bits.testBit k = false :=
        Nat.testBit_eq_false_of_lt
          (lt_of_lt_of_le hb (Nat.pow_le_pow_right (by norm_num) (by omega)))
      simp [Ne.symm hk1, Ne.symm hk2, h3, hbk]
  refine ⟨hfield, hframe, ?_⟩
  intro h0 h1
  apply Nat.eq_of_testBit_eq
  intro k
  by_cases hk1 : k = (index % 8) * 2
  · rw [hk1, hfield.1, h0]
  · by_cases hk2 : k = (index % 8) * 2 + 1
    · rw [hk2, hfield.2, h1]
    · exact hframe k hk1 hk2

set_option maxRecDepth 10000 in
/-- Witness for C5's amended statement: value `0x8` has index 1's field in
the enabled encoding, and the round trip restores it. -/
theorem enable_after_disable_behaviour_witness :
    (8 : Nat) < 2 ^ 32 ∧ Nat.testBit 8 2 = false ∧ Nat.testBit 8 3 = true ∧
    enable_index_bits (disable_index_bits 8 1) 1 = 8 :=
  ⟨by norm_num, by decide, by decide,
    (enable_after_disable_behaviour 8 1 (by norm_num)).2.2 (by decide) (by decide)⟩

/-- The lock transform always leaves the top two bits reading `0b01`. -/
theorem lock_transform_shiftRight (x : Nat) :
    (x &&& not32 (1 <<< 31) ||| 1 <<< 30) >>> 30 = 1 := by
  apply Nat.eq_of_testBit_eq
  intro i
  rw [Nat.testBit_shiftRight]
  simp only [Nat.one_shiftLeft, Nat.testBit_lor, Nat.testBit_land, testBit_not32,
    Nat.testBit_two_pow]
  match i with
  | 0 => simp
  | 1 =>
    have h4 : Nat.testBit 1 1 = false := by decide
    simp [h4]
  | i + 2 =>
    have h1 : ¬ (30 + (i + 2) < 32) := by omega
    have h2 : ¬ (31 = 30 + (i + 2)) := by omega
    have h3 : ¬ (30 = 30 + (i + 2)) := by omega
    have h4 : Nat.testBit 1 (i + 2) = false := by
      apply Nat.testBit_eq_false_of_lt
      have : (2 : Nat) ≤ 2 ^ (i + 2) := by
        calc (2 : Nat) = 2 ^ 1 := by norm_num
        _ ≤ 2 ^ (i + 2) := Nat.pow_le_pow_right (by norm_num) (by omega)
      omega
    simp [h1, h2, h3, h4]

set_option maxRecDepth 10000 in
/-- C8: after `lock_indices_low` the query `is_idxblk_l_locked` returns
true for every prior register value; and the lock query decodes to
"locked" exactly when bits 30-31 read `0b01` (bit 30 set, bit 31 clear) —
the writes-enabled pattern `0b10` and the reserved patterns `0b00` and
`0b11` all yield false. -/
theorem lock_low_then_locked :
    (∀ s : PufState, is_idxblk_l_locked (lock_indices_low s).1 = true) ∧
    (∀ v : Nat, v < 2 ^ 32 →
      (is_locked v = true ↔ (v.testBit 30 = true ∧ v.testBit 31 = false))) ∧
    (∀ v : Nat, v < 2 ^ 32 → v >>> 30 = 2 ∨ v >>> 30 = 0 ∨ v >>> 30 = 3 →
      is_locked v = false) := by
  refine ⟨?_, ?_, ?_⟩
  · intro s
    simp only [lock_indices_low, is_idxblk_l_locked, is_locked, get_lock_state,
      lockStateFromU32, lock_transform_shiftRight]
    rfl
  · intro v hv
    have hq : v >>> 30 < 4 := by
      rw [Nat.shiftRight_eq_div_pow]
      have h432 : (4 : Nat) * 2 ^ 30 = 2 ^ 32 := by norm_num
      exact (Nat.div_lt_iff_lt_mul (by norm_num)).mpr (by omega)
    have hb30 : v.testBit 30 = (v >>> 30).testBit 0 := by
      rw [Nat.testBit_shiftRight]
    have hb31 : v.testBit 31 = (v >>> 30).testBit 1 := by
      rw [Nat.testBit_shiftRight]
    rw [hb30, hb31]
    simp only [is_locked, get_lock_state, lockStateFromU32]
    generalize v >>> 30 = q at hq
    interval_cases q <;> simp <;> decide
  · intro v hv h
    rcases h with h | h | h <;>
      simp [is_locked, get_lock_state, lockStateFromU32, h]

set_option maxRecDepth 10000 in
/-- Witness for C8 at concrete register values. -/
theorem lock_low_then_locked_witness :
    is_idxblk_l_locked (lock_indices_low st0).1 = true ∧
    ((2 : Nat) ^ 30 < 2 ^ 32 ∧
      (is_locked (2 ^ 30) = true ↔
        (Nat.testBit (2 ^ 30) 30 = true ∧ Nat.testBit (2 ^ 30) 31 = false))) ∧
    ((2 : Nat) ^ 31 < 2 ^ 32 ∧ (2 ^ 31 : Nat) >>> 30 = 2 ∧ is_locked (2 ^ 31) = false) :=
  ⟨lock_low_then_locked.1 st0,
   ⟨by norm_num, lock_low_then_locked.2.1 (2 ^ 30) (by norm_num)⟩,
   ⟨by norm_num, by decide,
    lock_low_then_locked.2.2 (2 ^ 31) (by norm_num) (Or.inl (by decide))⟩⟩

/-- The post-loop success read never panics. -/
theorem readSuccess_not_panic (t : List Stat) (w : List WriteEvent) (b : List Nat) :
    ((readSuccess t w b).1).isPanic = false := by
  cases t <;> simp [readSuccess, Outcome.isPanic]

/-- The four bytes of a word. -/
theorem word_to_ne_bytes_length (w : Nat) : (word_to_ne_bytes w).length = 4 := rfl

/-- The byte-store loop succeeds and preserves the buffer length when the
bytes fit. -/
theorem writeKeyBytes_ok :
    ∀ (bs key : List Nat) (i : Nat), i + bs.length ≤ key.length →
      ∃ key', writeKeyBytes key i bs = .ok key' ∧ key'.length = key.length := by
  intro bs
  induction bs with
  | nil => exact fun key i _ => ⟨key, rfl, rfl⟩
  | cons b rest ih =>
    intro key i h
    simp only [List.length_cons] at h
    have hi : i < key.length := by omega
    have hset : setByte key i b = .ok (key.set i b) := by simp [setByte, hi]
    obtain ⟨key', hwk, hlen⟩ :=
      ih (key.set i b) (i + 1) (by simp only [List.length_set]; omega)
    refine ⟨key', ?_, ?_⟩
    · simp only [writeKeyBytes, hset, hwk]
    · simp only [List.length_set] at hlen
      exact hlen

/-- The byte-store loop panics with the slice out-of-bounds message when
the bytes do not fit. -/
theorem writeKeyBytes_err :
    ∀ (bs key : List Nat) (i : Nat), bs ≠ [] → key.length < i + bs.length →
      writeKeyBytes key i bs = .error "index out of bounds" := by
  intro bs
  induction bs with
  | nil => exact fun key i h _ => absurd rfl h
  | cons b rest ih =>
    intro key i _ hlt
    simp only [List.length_cons] at hlt
    by_cases hi : i < key.length
    · have hset : setByte key i b = .ok (key.set i b) := by simp [setByte, hi]
      rcases rest with _ | ⟨c, rest2⟩
      · simp only [List.length_nil] at hlt
        omega
      · simp only [writeKeyBytes, hset]
        exact ih (key.set i b) (i + 1) (by simp)
          (by simp only [List.length_set, List.length_cons] at hlt ⊢; omega)
    · have hset : setByte key i b = .error "index out of bounds" := by simp [setByte, hi]
      simp [writeKeyBytes, hset]

/-- When the trace demands at most `keycode.length` input words and at most
`key.length / 4` output words (measured in bytes: `4 *` demand), the
streaming loop of `get_key` never performs an out-of-bounds slice access. -/
theorem getKeyLoop_demand_le (keyOut : Nat → Nat) (keycode : List Nat) :
    ∀ (n : Nat) (t : List Stat), t.length ≤ n →
    ∀ (kc_idx ko_idx : Nat) (key : List Nat) (key_idx : Nat) (w : List WriteEvent),
      kc_idx + (loopDemand t).1 ≤ keycode.length →
      key_idx + 4 * (loopDemand t).2 ≤ key.length →
      ((getKeyLoop keyOut keycode t kc_idx ko_idx key key_idx w).1).isPanic = false := by
  intro n
  induction n with
  | zero =>
    intro t ht kc_idx ko_idx key key_idx w h1 h2
    have hnil : t = [] := List.length_eq_zero.mp (Nat.le_zero.mp ht)
    subst hnil
    rfl
  | succ n ih =>
    intro t ht kc_idx ko_idx key key_idx w h1 h2
    rcases t with _ | ⟨s1, rest⟩
    · rfl
    · cases hb : s1.busy
      · simp [getKeyLoop, hb, readSuccess_not_panic]
      · rcases rest with _ | ⟨s2, rest2⟩
        · simp [getKeyLoop, getKeyErrRead, hb, Outcome.isPanic]
        · cases he : s2.error
          · rcases rest2 with _ | ⟨s3, rest3⟩
            · simp [getKeyLoop, getKeyErrRead, getKeyReqRead, hb, he, Outcome.isPanic]
            · cases hreq : s3.codeinreq
              · -- no input word requested at this step
                rcases rest3 with _ | ⟨s4, rest4⟩
                · simp [getKeyLoop, getKeyErrRead, getKeyReqRead, getKeyOutRead, hb, he, hreq,
                    Outcome.isPanic]
                · simp only [loopDemand, demandErr, demandReq, demandOut, hb, he, hreq,
                    Bool.not_true, Bool.false_eq_true, if_false, ite_false] at h1 h2
                  cases hout : s4.keyoutavail
                  · simp only [getKeyLoop, getKeyErrRead, getKeyReqRead, getKeyOutRead, hb, he,
                      hreq, hout, Bool.not_true, Bool.false_eq_true, if_false, ite_false]
                    simp only [hout, Bool.false_eq_true, if_false, ite_false] at h1 h2
                    refine ih rest4 ?_ kc_idx ko_idx key key_idx w ?_ ?_
                    · simp only [List.length_cons] at ht; omega
                    · omega
                    · omega
                  · simp only [hout, if_true, ite_true] at h1 h2
                    have hk4 : key_idx + 4 ≤ key.length := by omega
                    obtain ⟨key', hwk, hlen⟩ :=
                      writeKeyBytes_ok (word_to_ne_bytes (keyOut ko_idx)) key key_idx
                        (by rw [word_to_ne_bytes_length]; omega)
                    simp only [getKeyLoop, getKeyErrRead, getKeyReqRead, getKeyOutRead, hb, he,
                      hreq, hout, hwk, Bool.not_true, Bool.false_eq_true, if_false, ite_false,
                      if_true, ite_true]
                    refine ih rest4 ?_ kc_idx (ko_idx + 1) key' (key_idx + 4) w ?_ ?_
                    · simp only [List.length_cons] at ht; omega
                    · omega
                    · omega
              · -- an input word is requested: the demand bound keeps the index in range
                simp only [loopDemand, demandErr, demandReq, demandOut, hb, he, hreq,
                  Bool.not_true, Bool.false_eq_true, if_false, ite_false, if_true,
                  ite_true] at h1 h2
                have hkc : kc_idx < keycode.length := by
                  rcases rest3 with _ | ⟨s4, rest4⟩
                  · simp [demandOut] at h1; omega
                  · simp [demandOut] at h1; omega
                have hsome : keycode[kc_idx]? = some keycode[kc_idx] :=
                  List.getElem?_eq_getElem hkc
                rcases rest3 with _ | ⟨s4, rest4⟩
                · simp [getKeyLoop, getKeyErrRead, getKeyReqRead, getKeyOutRead, hb, he, hreq,
                    hsome, Outcome.isPanic]
                · simp only [demandOut] at h1 h2
                  cases hout : s4.keyoutavail
                  · simp only [getKeyLoop, getKeyErrRead, getKeyReqRead, getKeyOutRead, hb, he,
                      hreq, hout, hsome, Bool.not_true, Bool.false_eq_true, if_false, ite_false,
                      if_true, ite_true]
                    simp only [hout, Bool.false_eq_true, if_false, ite_false] at h1 h2
                    refine ih rest4 ?_ (kc_idx + 1) ko_idx key key_idx
                      (w ++ [WriteEvent.codeinput keycode[kc_idx]]) ?_ ?_
                    · simp only [List.length_cons] at ht; omega
                    · omega
                    · omega
                  · simp only [hout, if_true, ite_true] at h1 h2
                    obtain ⟨key', hwk, hlen⟩ :=
                      writeKeyBytes_ok (word_to_ne_bytes (keyOut ko_idx)) key key_idx
                        (by rw [word_to_ne_bytes_length]; omega)
                    simp only [getKeyLoop, getKeyErrRead, getKeyReqRead, getKeyOutRead, hb, he,
                      hreq, hout, hsome, hwk, Bool.not_true, Bool.false_eq_true, if_false,
                      ite_false, if_true, ite_true]
                    refine ih rest4 ?_ (kc_idx + 1) (ko_idx + 1) key' (key_idx + 4)
                      (w ++ [WriteEvent.codeinput keycode[kc_idx]]) ?_ ?_
                    · simp only [List.length_cons] at ht; omega
                    · omega
                    · omega
          · simp [getKeyLoop, getKeyErrRead, hb, he, readSuccess_not_panic]

/-- When the trace demands more input words than the keycode slice holds,
or offers more output words than fit into the key buffer, the streaming
loop of `get_key` panics with the slice out-of-bounds message. -/
theorem getKeyLoop_demand_exceeded (keyOut : Nat → Nat) (keycode : List Nat) :
    ∀ (n : Nat) (t : List Stat), t.length ≤ n →
    ∀ (kc_idx ko_idx : Nat) (key : List Nat) (key_idx : Nat) (w : List WriteEvent),
      kc_idx ≤ keycode.length → key_idx ≤ key.length →
      (keycode.length < kc_idx + (loopDemand t).1 ∨
        key.length < key_idx + 4 * (loopDemand t).2) →
      (getKeyLoop keyOut keycode t kc_idx ko_idx key key_idx w).1 =
        .panicked "index out of bounds" := by
  intro n
  induction n with
  | zero =>
    intro t ht kc ko key ki w hkc hki h
    have hnil : t = [] := List.length_eq_zero.mp (Nat.le_zero.mp ht)
    subst hnil
    simp [loopDemand] at h
    exfalso
    omega
  | succ n ih =>
    intro t ht kc ko key ki w hkc hki h
    rcases t with _ | ⟨s1, rest⟩
    · simp [loopDemand] at h
      exfalso
      omega
    · cases hb : s1.busy
      · simp [loopDemand, hb] at h
        exfalso
        omega
      · rcases rest with _ | ⟨s2, rest2⟩
        · simp [loopDemand, demandErr, hb] at h
          exfalso
          omega
        · cases he : s2.error
          · rcases rest2 with _ | ⟨s3, rest3⟩
            · simp [loopDemand, demandErr, demandReq, hb, he] at h
              exfalso
              omega
            · cases hreq : s3.codeinreq
              · -- no input word requested at this step
                simp only [loopDemand, demandErr, demandReq, demandOut, hb, he, hreq,
                  Bool.not_true, Bool.false_eq_true, if_false, ite_false] at h
                rcases rest3 with _ | ⟨s4, rest4⟩
                · simp [demandOut] at h
                  exfalso
                  omega
                · simp only [demandOut] at h
                  cases hout : s4.keyoutavail
                  · simp only [getKeyLoop, getKeyErrRead, getKeyReqRead, getKeyOutRead, hb, he,
                      hreq, hout, Bool.not_true, Bool.false_eq_true, if_false, ite_false]
                    simp only [hout, Bool.false_eq_true, if_false, ite_false] at h
                    refine ih rest4 ?_ kc ko key ki w hkc hki ?_
                    · simp only [List.length_cons] at ht; omega
                    · rcases h with h | h
                      · left; omega
                      · right; omega
                  · simp only [hout, if_true, ite_true] at h
                    by_cases hk4 : ki + 4 ≤ key.length
                    · obtain ⟨key', hwk, hlen⟩ :=
                        writeKeyBytes_ok (word_to_ne_bytes (keyOut ko)) key ki
                          (by rw [word_to_ne_bytes_length]; omega)
                      simp only [getKeyLoop, getKeyErrRead, getKeyReqRead, getKeyOutRead, hb,
                        he, hreq, hout, hwk, Bool.not_true, Bool.false_eq_true, if_false,
                        ite_false, if_true, ite_true]
                      refine ih rest4 ?_ kc (ko + 1) key' (ki + 4) w hkc (by omega) ?_
                      · simp only [List.length_cons] at ht; omega
                      · rcases h with h | h
                        · left; omega
                        · right; omega
                    · have hwe : writeKeyBytes key ki (word_to_ne_bytes (keyOut ko)) =
                          .error "index out of bounds" :=
                        writeKeyBytes_err (word_to_ne_bytes (keyOut ko)) key ki
                            (by simp [word_to_ne_bytes])
                          (by rw [word_to_ne_bytes_length]; omega)
                      simp [getKeyLoop, getKeyErrRead, getKeyReqRead, getKeyOutRead, hb, he,
                        hreq, hout, hwe]
              · -- an input word is requested at this step
                simp only [loopDemand, demandErr, demandReq, demandOut, hb, he, hreq,
                  Bool.not_true, Bool.false_eq_true, if_false, ite_false, if_true,
                  ite_true] at h
                by_cases hkclt : kc < keycode.length
                · have hsome : keycode[kc]? = some keycode[kc] :=
                    List.getElem?_eq_getElem hkclt
                  rcases rest3 with _ | ⟨s4, rest4⟩
                  · simp [demandOut] at h
                    exfalso
                    omega
                  · simp only [demandOut] at h
                    cases hout : s4.keyoutavail
                    · simp only [getKeyLoop, getKeyErrRead, getKeyReqRead, getKeyOutRead, hb,
                        he, hreq, hout, hsome, Bool.not_true, Bool.false_eq_true, if_false,
                        ite_false, if_true, ite_true]
                      simp only [hout, Bool.false_eq_true, if_false, ite_false] at h
                      refine ih rest4 ?_ (kc + 1) ko key ki
                        (w ++ [WriteEvent.codeinput keycode[kc]]) (by omega) hki ?_
                      · simp only [List.length_cons] at ht; omega
                      · rcases h with h | h
                        · left; omega
                        · right; omega
                    · simp only [hout, if_true, ite_true] at h
                      by_cases hk4 : ki + 4 ≤ key.length
                      · obtain ⟨key', hwk, hlen⟩ :=
                          writeKeyBytes_ok (word_to_ne_bytes (keyOut ko)) key ki
                            (by rw [word_to_ne_bytes_length]; omega)
                        simp only [getKeyLoop, getKeyErrRead, getKeyReqRead, getKeyOutRead, hb,
                          he, hreq, hout, hsome, hwk, Bool.not_true, Bool.false_eq_true,
                          if_false, ite_false, if_true, ite_true]
                        refine ih rest4 ?_ (kc + 1) (ko + 1) key' (ki + 4)
                          (w ++ [WriteEvent.codeinput keycode[kc]]) (by omega) (by omega) ?_
                        · simp only [List.length_cons] at ht; omega
                        · rcases h with h | h
                          · left; omega
                          · right; omega
                      · have hwe : writeKeyBytes key ki (word_to_ne_bytes (keyOut ko)) =
                            .error "index out of bounds" :=
                          writeKeyBytes_err (word_to_ne_bytes (keyOut ko)) key ki
                            (by simp [word_to_ne_bytes])
                            (by rw [word_to_ne_bytes_length]; omega)
                        simp [getKeyLoop, getKeyErrRead, getKeyReqRead, getKeyOutRead, hb, he,
                          hreq, hout, hsome, hwe]
                · have hnone : keycode[kc]? = none :=
                    List.getElem?_eq_none (by omega)
                  simp [getKeyLoop, getKeyErrRead, getKeyReqRead, hb, he, hreq, hnone]
          · -- error bit set: the loop exits, so the demand is zero
            simp [loopDemand, demandErr, hb, he] at h
            exfalso
            omega

/-- C10: the streaming loop of `get_key` performs unchecked slice accesses.
It completes without an out-of-bounds access precisely when the hardware
trace requests at most `keycode.length` input words and produces at most
`key.length / 4` output words; on every trace exceeding either bound it
panics on an out-of-range index ("index out of bounds") instead of
returning failure — including when entered through `get_key` itself. -/
theorem getKey_streaming_bounds :
    (∀ (trace : List Stat) (keyOut : Nat → Nat) (keycode key : List Nat) (w : List WriteEvent),
      (loopDemand trace).1 ≤ keycode.length → (loopDemand trace).2 ≤ key.length / 4 →
      ((getKeyLoop keyOut keycode trace 0 0 key 0 w).1).isPanic = false) ∧
    (∀ (trace : List Stat) (keyOut : Nat → Nat) (keycode key : List Nat) (w : List WriteEvent),
      keycode.length < (loopDemand trace).1 ∨ key.length / 4 < (loopDemand trace).2 →
      (getKeyLoop keyOut keycode trace 0 0 key 0 w).1 = .panicked "index out of bounds") ∧
    (∀ (s : PufState) (trace rest : List Stat) (keyOut : Nat → Nat) (keycode key : List Nat)
      (index : Nat) (b : Bool),
      s.allowgetkey = true → index_from_keycode keycode = .ok index →
      is_index_blocked s index = .ok false →
      wait_for_cmd_accept trace = (some b, rest) →
      (keycode.length < (loopDemand rest).1 ∨ key.length / 4 < (loopDemand rest).2) →
      (get_key s trace keyOut keycode key).1 = .panicked "index out of bounds") := by
  have hexc : ∀ (rest : List Stat) (keyOut : Nat → Nat) (keycode key : List Nat)
      (w : List WriteEvent),
      keycode.length < (loopDemand rest).1 ∨ key.length / 4 < (loopDemand rest).2 →
      (getKeyLoop keyOut keycode rest 0 0 key 0 w).1 = .panicked "index out of bounds" := by
    intro rest keyOut keycode key w h
    refine getKeyLoop_demand_exceeded keyOut keycode rest.length rest le_rfl 0 0 key 0 w
      (by omega) (by omega) ?_
    rcases h with h | h
    · left; omega
    · right
      have h4 := (Nat.div_lt_iff_lt_mul (x := key.length) (y := (loopDemand rest).2)
        (k := 4) (by norm_num)).mp h
      omega
  refine ⟨?_, fun trace keyOut keycode key w h => hexc trace keyOut keycode key w h, ?_⟩
  · intro trace keyOut keycode key w h1 h2
    have h4 := (Nat.le_div_iff_mul_le (x := (loopDemand trace).2) (y := key.length)
      (k := 4) (by norm_num)).mp h2
    exact getKeyLoop_demand_le keyOut keycode trace.length trace le_rfl 0 0 key 0 w
      (by omega) (by omega)
  · intro s trace rest keyOut keycode key index b hA hidx hblk hacc hdem
    simp only [get_key, hA, hidx, hblk, hacc, Bool.not_true, Bool.false_eq_true, if_false,
      ite_false]
    exact hexc rest keyOut keycode key [WriteEvent.ctrl .getkey] hdem

/-- Witness for C10: a trace within bounds does not panic; a trace
requesting one input word overruns an empty keycode; through `get_key`, a
trace offering one output word overruns an empty key buffer. -/
theorem getKey_streaming_bounds_witness :
    ((loopDemand []).1 ≤ ([] : List Nat).length ∧
      (loopDemand []).2 ≤ ([] : List Nat).length / 4 ∧
      ((getKeyLoop ko0 [] [] 0 0 [] 0 []).1).isPanic = false) ∧
    (([] : List Nat).length < (loopDemand trOver).1 ∧
      (getKeyLoop ko0 [] trOver 0 0 [] 0 []).1 = .panicked "index out of bounds") ∧
    (stK.allowgetkey = true ∧
      wait_for_cmd_accept trC10 = (some true, [sBusy, sIdle, sIdle, sOutAvail]) ∧
      ([] : List Nat).length / 4 < (loopDemand [sBusy, sIdle, sIdle, sOutAvail]).2 ∧
      (get_key stK trC10 ko0 [0x101] []).1 = .panicked "index out of bounds") :=
  ⟨⟨by decide, by decide,
    getKey_streaming_bounds.1 [] ko0 [] [] [] (by decide) (by decide)⟩,
   ⟨by decide,
    getKey_streaming_bounds.2.1 trOver ko0 [] [] [] (Or.inl (by decide))⟩,
   ⟨by decide, by rfl, by decide,
    getKey_streaming_bounds.2.2 stK trC10 [sBusy, sIdle, sIdle, sOutAvail] ko0 [0x101] [] 1
      true (by decide) (by rfl) (by rfl) (by rfl) (Or.inr (by decide))⟩⟩

end Lpc55Puf
